import Mathlib

/-!
Shallow embedding of src/app.py (a Flask proxy-harvesting API) into Lean 4.

Data is modelled faithfully to the Python code:
* a cached proxy record is a Python dict with string-valued ip/port/protocol/source
  fields, an optional last-checked timestamp and an optional working flag;
* the cache is a process-wide dict with a proxy list, an optional last-updated
  timestamp (None = never) and a fixed expiration window;
* timestamps and durations are natural numbers (minutes);
* the network is abstracted by passing each function the outcome of its network
  call (the parsed document for fetching, the probe status for verifying, the
  harvested list for a refresh cycle);
* Python expressions that can raise (None + timedelta, element lookup out of
  range) are threaded through Option: a `none` result marks a run-time crash.
-/

namespace ProxyApp

/-- A proxy record as built by fetch_proxies_from_source in src/app.py:
all of ip, port, protocol and source are strings (the port is never converted
to an integer), last_checked and working start as None. -/
structure Proxy where
  ip : String
  port : String
  protocol : String
  source : String
  last_checked : Option Nat
  working : Option Bool
deriving Repr, DecidableEq

/-- The parsed HTML document handed to the tabular extraction rule:
soup.find('table') either finds no table or yields the first table, whose
rows (tr elements) are each a list of cell (td) texts. -/
structure HtmlDoc where
  firstTable : Option (List (List String))
deriving Repr, DecidableEq

/-- Does the second character list start with the first? -/
def charsStartWith : List Char → List Char → Bool
  | [], _ => true
  | _ :: _, [] => false
  | p :: ps, c :: cs => p == c && charsStartWith ps cs

/-- Does the character list contain the pattern as a contiguous run? -/
def charsContain (pat : List Char) : List Char → Bool
  | [] => charsStartWith pat []
  | c :: cs => charsStartWith pat (c :: cs) || charsContain pat cs

/-- Model of the Python substring test `pat in s` used for the ssl
heuristic. -/
def strContains (s pat : String) : Bool :=
  charsContain pat.data s.data

/-- Python considers these characters whitespace for str.strip(). -/
def isSpaceChar (c : Char) : Bool :=
  c == ' ' || c == '\t' || c == '\n' || c == '\r' || c == '\x0b' || c == '\x0c'

/-- Model of Python str.strip(): drop leading and trailing whitespace. -/
def pyStrip (s : String) : String :=
  (((s.data.dropWhile isSpaceChar).reverse.dropWhile isSpaceChar).reverse).asString

/-- One pass of Python str.split(sep) for a one-character separator: cut at
every separator occurrence, keeping empty pieces (the accumulator holds the
current piece reversed). -/
def pySplitAux (sep : Char) : List Char → List Char → List (List Char)
  | cur, [] => [cur.reverse]
  | cur, c :: cs =>
    if c == sep then cur.reverse :: pySplitAux sep [] cs
    else pySplitAux sep (c :: cur) cs

/-- Python str.split with a one-character separator, e.g.
"https://a.example/list".split('/') = ["https:", "", "a.example", "list"]. -/
def pySplit (s : String) (sep : Char) : List String :=
  (pySplitAux sep [] s.data).map List.asString

/-- The record appended for one well-formed table row in
fetch_proxies_from_source: first column is the ip, second the port (both
stripped), protocol https exactly when the url contains "ssl". -/
def mkRowProxy (url : String) (cols : List String) : Proxy :=
  { ip := pyStrip (cols.getD 0 "")
    port := pyStrip (cols.getD 1 "")
    protocol := if strContains url "ssl" then "https" else "http"
    source := url
    last_checked := none
    working := none }

/-- The row loop of fetch_proxies_from_source: append a record for each row
with at least two columns, skip the others. -/
def rowLoop (url : String) (rows : List (List String)) : List Proxy :=
  rows.foldl
    (fun acc cols => if 2 ≤ cols.length then acc ++ [mkRowProxy url cols] else acc)
    []

/-- fetch_proxies_from_source (src/app.py lines 24-56): the network retrieval
and parse outcome is passed in (Except.error marks any raised exception, which
the bare except catches, returning []).  For parser_type 'table' the first
table's rows [1:20] (skip header, at most 19 rows) are scanned by rowLoop. -/
def fetch_proxies_from_source (url parserType : String)
    (outcome : Except Unit HtmlDoc) : List Proxy :=
  match outcome with
  | .error _ => []
  | .ok doc =>
    if parserType == "table" then
      match doc.firstTable with
      | none => []
      | some rows => rowLoop url ((rows.drop 1).take 19)
    else []

/-- Outcome of the probe request in test_proxy: either requests.get returned a
response with a status code, or it raised (timeout, refused connection,
protocol error...). -/
inductive ProbeResult where
  | response (statusCode : Nat)
  | failure
deriving Repr, DecidableEq

/-- test_proxy (src/app.py lines 58-77): a single probe through the candidate;
on a 200 status the record is stamped with last_checked = now and
working = true and returned; on any other status or any exception, None. -/
def test_proxy (p : Proxy) (probe : ProbeResult) (now : Nat) : Option Proxy :=
  match probe with
  | .failure => none
  | .response code =>
    if code == 200 then
      some { p with last_checked := some now, working := some true }
    else none

/-- The dedupe identifier of a record, the Python f-string
`f"{proxy['ip']}:{proxy['port']}"`: the colon-joined ip and port texts. -/
def proxyKey (p : Proxy) : String :=
  p.ip ++ ":" ++ p.port

/-- The duplicate-elimination loop of update_proxy_cache (src/app.py lines
105-112), with the seen-set carried explicitly. -/
def dedupeAux (seen : List String) : List Proxy → List Proxy
  | [] => []
  | p :: rest =>
    if proxyKey p ∈ seen then dedupeAux seen rest
    else p :: dedupeAux (proxyKey p :: seen) rest

/-- Deduplication as run by update_proxy_cache on the concatenated fetch
results. -/
def dedupe (candidates : List Proxy) : List Proxy :=
  dedupeAux [] candidates

/-- The process-wide proxy_cache dict: a proxy list, an optional last-updated
timestamp (None = never) and the fixed expiration window (30 minutes). -/
structure CacheState where
  proxies : List Proxy
  last_updated : Option Nat
  expires_in : Nat
deriving Repr, DecidableEq

/-- update_proxy_cache seen from the cache (src/app.py lines 122-124): the
harvested working list replaces the proxy list and last_updated is set to the
current time.  The harvest itself (fetch across sources, dedupe, verify) is
abstracted by its result. -/
def update_proxy_cache (c : CacheState) (now : Nat) (harvest : List Proxy) :
    CacheState :=
  { c with proxies := harvest, last_updated := some now }

/-- The staleness test of get_proxies / get_proxies_by_protocol
(src/app.py lines 143-144): `not proxy_cache['proxies'] or
datetime.now() > last_updated + expires_in`.  Python short-circuits, so an
empty list answers true without touching last_updated; with a non-empty list
and last_updated = None the addition raises a TypeError, modelled as none. -/
def needsRefresh (c : CacheState) (now : Nat) : Option Bool :=
  if c.proxies.isEmpty then some true
  else
    match c.last_updated with
    | none => none
    | some t => some (decide (t + c.expires_in < now))

/-- The JSON body of GET /proxies: count, last_updated (a timestamp — None
would crash isoformat, so a successful response always carries one) and the
proxy list. -/
structure ProxiesResponse where
  count : Nat
  last_updated : Nat
  proxies : List Proxy
deriving Repr, DecidableEq

/-- get_proxies (src/app.py lines 140-151): staleness check, refresh when
needed, then the response is built from the (possibly refreshed) cache.  The
result pairs the new cache state and response with the number of harvest
cycles run (0 or 1); none marks a Python crash. -/
def get_proxies (c : CacheState) (now : Nat) (harvest : List Proxy) :
    Option (CacheState × ProxiesResponse × Nat) :=
  match needsRefresh c now with
  | none => none
  | some b =>
    let c2 := if b then update_proxy_cache c now harvest else c
    match c2.last_updated with
    | none => none
    | some t => some (c2, ⟨c2.proxies.length, t, c2.proxies⟩, if b then 1 else 0)

/-- The JSON body of GET /proxies/<protocol>: either the 400 error dict or the
filtered listing; paired with the HTTP status code below. -/
inductive ProtoBody where
  | error (msg : String)
  | listing (count : Nat) (protocol : String) (proxies : List Proxy)
deriving Repr, DecidableEq

/-- get_proxies_by_protocol (src/app.py lines 153-169): a protocol outside
{http, https} is rejected with status 400 before any cache interaction;
otherwise the same staleness check as get_proxies runs, then the cache is
filtered by protocol. -/
def get_proxies_by_protocol (protocol : String) (c : CacheState) (now : Nat)
    (harvest : List Proxy) : Option (CacheState × Nat × ProtoBody × Nat) :=
  if protocol ≠ "http" ∧ protocol ≠ "https" then
    some (c, 400, .error "Protocolo no válido. Use http o https", 0)
  else
    match needsRefresh c now with
    | none => none
    | some b =>
      let c2 := if b then update_proxy_cache c now harvest else c
      let filtered := c2.proxies.filter (fun p => p.protocol == protocol)
      some (c2, 200, .listing filtered.length protocol filtered, if b then 1 else 0)

/-- The domain extracted from a source url in get_stats:
`proxy['source'].split('/')[2]`; an url with fewer than three slash-separated
parts raises IndexError, modelled as none. -/
def domainOf (s : String) : Option String :=
  (pySplit s '/').get? 2

/-- One step of the per-source-domain counting dict of get_stats: Python dicts
keep insertion order, so the tally is an ordered association list. -/
def bumpDomain (acc : List (String × Nat)) (d : String) : List (String × Nat) :=
  if acc.any (fun kv => kv.1 == d) then
    acc.map (fun kv => if kv.1 == d then (kv.1, kv.2 + 1) else kv)
  else acc ++ [(d, 1)]

/-- The sources tally loop of get_stats (src/app.py lines 180-183); none marks
an IndexError on a malformed source url. -/
def sourcesTally (ps : List Proxy) : Option (List (String × Nat)) :=
  ps.foldl
    (fun acc p => do bumpDomain (← acc) (← domainOf p.source))
    (some [])

/-- The JSON body of GET /stats. -/
structure StatsResponse where
  total_proxies : Nat
  http_proxies : Nat
  https_proxies : Nat
  sources : List (String × Nat)
  last_updated : Nat
deriving Repr, DecidableEq

/-- get_stats (src/app.py lines 171-191): the refresh check tests ONLY
emptiness of the proxy list (`if not proxy_cache['proxies']`) — unlike
get_proxies it never consults last_updated or the expiration window.  Then
http_proxies counts protocol == 'http', https_proxies is the remainder, and
sources tallies the url domains.  Result: new state, response, cycles run. -/
def get_stats (c : CacheState) (now : Nat) (harvest : List Proxy) :
    Option (CacheState × StatsResponse × Nat) :=
  let (c2, n) :=
    if c.proxies.isEmpty then (update_proxy_cache c now harvest, 1) else (c, 0)
  let httpCount := (c2.proxies.filter (fun p => p.protocol == "http")).length
  match sourcesTally c2.proxies, c2.last_updated with
  | some srcs, some t =>
    some (c2, ⟨c2.proxies.length, httpCount, c2.proxies.length - httpCount,
               srcs, t⟩, n)
  | _, _ => none

/-! ### JSON view of a served proxy record

jsonify serialises the Python dict field-by-field: a str field becomes a JSON
string, an int a JSON number, None null, a bool a boolean.  The port field of
a record is a Python str, so it is served as a JSON string. -/

/-- A JSON value, as produced by jsonify. -/
inductive Json where
  | null
  | bool (b : Bool)
  | num (n : Int)
  | str (s : String)
  | arr (xs : List Json)
  | obj (fields : List (String × Json))
deriving Repr

/-- Serialisation of one proxy dict by jsonify: each field keeps its Python
type; ip, port, protocol and source are strs, hence JSON strings. -/
def proxyToJson (p : Proxy) : Json :=
  .obj [("ip", .str p.ip),
        ("port", .str p.port),
        ("protocol", .str p.protocol),
        ("source", .str p.source),
        ("last_checked", match p.last_checked with
                         | none => .null
                         | some t => .num t),
        ("working", match p.working with
                    | none => .null
                    | some b => .bool b)]

/-- Field lookup in a serialised JSON object. -/
def jsonField (j : Json) (key : String) : Option Json :=
  match j with
  | .obj fields => (fields.find? (fun kv => kv.1 == key)).map (fun kv => kv.2)
  | _ => none

/-! ### Interleaving model of concurrent read-through calls

Flask serves requests on concurrent threads and src/app.py takes no lock: each
get_proxies handler first evaluates the staleness condition on the shared
cache (lines 143-144) and, when it answers true, later runs the whole
update_proxy_cache cycle (line 145).  The two are separate steps on shared
state; a scheduler interleaves the threads. -/

/-- Program counter of one read-through handler thread: about to evaluate the
staleness check, about to run the harvest cycle, or finished. -/
inductive Pc where
  | check
  | refresh
  | done
deriving Repr, DecidableEq

/-- Shared state of the process plus the handler threads: the cache, each
thread's program counter, and a count of harvest cycles executed. -/
structure ConcState where
  cache : CacheState
  pcs : List Pc
  cycles : Nat
deriving Repr, DecidableEq

/-- One scheduler step running thread i: at check, the staleness condition is
evaluated on the current shared cache (an unevaluable condition, or a finished
or absent thread, leaves the state unchanged); at refresh, the whole
update_proxy_cache cycle runs and publishes its result. -/
def stepThread (now : Nat) (harvest : List Proxy) (s : ConcState) (i : Nat) :
    ConcState :=
  match s.pcs.get? i with
  | some .check =>
    match needsRefresh s.cache now with
    | some true => { s with pcs := s.pcs.set i .refresh }
    | some false => { s with pcs := s.pcs.set i .done }
    | none => s
  | some .refresh =>
    { cache := update_proxy_cache s.cache now harvest
      pcs := s.pcs.set i .done
      cycles := s.cycles + 1 }
  | _ => s

/-- Run the threads under an explicit schedule (list of thread indices). -/
def runSched (now : Nat) (harvest : List Proxy) (s : ConcState)
    (sched : List Nat) : ConcState :=
  sched.foldl (stepThread now harvest) s

/-- N concurrent read-through calls all at the check step, over a given
initial cache. -/
def initConc (c : CacheState) (n : Nat) : ConcState :=
  ⟨c, List.replicate n .check, 0⟩

/-! ### Helper lemmas -/

/-- The dedupe loop only drops elements: its output is a sublist of its
input, so relative order is preserved. -/
theorem dedupeAux_sublist (l : List Proxy) :
    ∀ seen, (dedupeAux seen l).Sublist l := by
  induction l with
  | nil => intro seen; simp [dedupeAux]
  | cons p rest ih =>
    intro seen
    simp only [dedupeAux]
    split
    · exact (ih seen).trans (List.sublist_cons_self p rest)
    · exact (ih (proxyKey p :: seen)).cons₂ p

/-- The dedupe loop emits pairwise-distinct identifiers, none of them already
seen. -/
theorem dedupeAux_keys (l : List Proxy) :
    ∀ seen, ((dedupeAux seen l).map proxyKey).Nodup ∧
      ∀ k ∈ (dedupeAux seen l).map proxyKey, k ∉ seen := by
  induction l with
  | nil => intro seen; simp [dedupeAux]
  | cons p rest ih =>
    intro seen
    simp only [dedupeAux]
    split
    case isTrue h => exact ih seen
    case isFalse h =>
      obtain ⟨hnd, hout⟩ := ih (proxyKey p :: seen)
      refine ⟨?_, ?_⟩
      · simp only [List.map_cons, List.nodup_cons]
        exact ⟨fun hmem => hout _ hmem (List.mem_cons_self _ _), hnd⟩
      · intro k hk
        simp only [List.map_cons, List.mem_cons] at hk
        rcases hk with rfl | hk
        · exact h
        · exact fun hkseen => hout k hk (List.mem_cons_of_mem _ hkseen)

/-- Every identifier of the input is represented in the dedupe loop's output
(or was already seen). -/
theorem dedupeAux_complete (l : List Proxy) :
    ∀ seen p, p ∈ l →
      proxyKey p ∈ seen ∨ ∃ q ∈ dedupeAux seen l, proxyKey q = proxyKey p := by
  induction l with
  | nil => intro seen p hp; cases hp
  | cons a rest ih =>
    intro seen p hp
    by_cases h : proxyKey a ∈ seen
    · simp only [dedupeAux, if_pos h]
      rcases List.mem_cons.mp hp with rfl | hp
      · exact Or.inl h
      · exact ih seen p hp
    · simp only [dedupeAux, if_neg h]
      rcases List.mem_cons.mp hp with rfl | hp
      · exact Or.inr ⟨p, List.mem_cons_self _ _, rfl⟩
      · rcases ih (proxyKey a :: seen) p hp with hseen | ⟨q, hq, hkey⟩
        · rcases List.mem_cons.mp hseen with heq | hseen
          · exact Or.inr ⟨a, List.mem_cons_self _ _, heq.symm⟩
          · exact Or.inl hseen
        · exact Or.inr ⟨q, List.mem_cons_of_mem _ hq, hkey⟩

/-- The row loop of the fetcher keeps exactly the rows with at least two
columns, in order, each mapped to its record. -/
theorem rowLoop_eq_filter_map (url : String) (rows : List (List String)) :
    rowLoop url rows =
      (rows.filter (fun r => 2 ≤ r.length)).map (mkRowProxy url) := by
  have h : ∀ (rs : List (List String)) (acc : List Proxy),
      rs.foldl
        (fun acc cols =>
          if 2 ≤ cols.length then acc ++ [mkRowProxy url cols] else acc)
        acc
      = acc ++ (rs.filter (fun r => 2 ≤ r.length)).map (mkRowProxy url) := by
    intro rs
    induction rs with
    | nil => intro acc; simp
    | cons r rest ih =>
      intro acc
      by_cases h2 : 2 ≤ r.length
      · simp [List.foldl_cons, h2, ih, List.filter_cons]
      · simp [List.foldl_cons, h2, ih, List.filter_cons]
  simpa [rowLoop] using h rows []

/-! ### Claims -/

/-- C2.  Deduplication: the output of dedupe has no two entries sharing the
same (address, port) pair, is a sublist of the input (so the retained entries
keep their first-occurrence order) and every input identifier is represented.
Purity holds by construction: dedupe is a Lean function of the candidate list
alone, touching no other state and leaving its input intact. -/
theorem c2_dedupe (l : List Proxy) :
    ((dedupe l).Pairwise fun p q => ¬(p.ip = q.ip ∧ p.port = q.port)) ∧
    (dedupe l).Sublist l ∧
    (∀ p ∈ l, ∃ q ∈ dedupe l, proxyKey q = proxyKey p) := by
  refine ⟨?_, dedupeAux_sublist l [], ?_⟩
  · have hnd := (dedupeAux_keys l []).1
    have hpw := List.pairwise_map.mp hnd
    exact hpw.imp fun hne ⟨hip, hport⟩ =>
      hne (by simp [proxyKey, hip, hport])
  · intro p hp
    rcases dedupeAux_complete l [] p hp with hseen | hex
    · cases hseen
    · exact hex

/-- C2 witness: the guarantees evaluated on a concrete candidate list with a
repeated (address, port) pair. -/
theorem c2_dedupe_witness :
    ∃ q ∈ dedupe [⟨"1.2.3.4", "8080", "http", "s1", none, none⟩,
                  ⟨"1.2.3.4", "8080", "https", "s2", none, none⟩],
      proxyKey q = proxyKey ⟨"1.2.3.4", "8080", "https", "s2", none, none⟩ :=
  (c2_dedupe [⟨"1.2.3.4", "8080", "http", "s1", none, none⟩,
              ⟨"1.2.3.4", "8080", "https", "s2", none, none⟩]).2.2
    ⟨"1.2.3.4", "8080", "https", "s2", none, none⟩ (by decide)

/-- C10.  The dedupe identifier is the colon-joined ip and port, so the
distinct endpoints ("a:b", "c") and ("a", "b:c") share the identifier
"a:b:c": dedupe keeps only the first and silently drops the second. -/
theorem c10_key_collision :
    (Proxy.mk "a:b" "c" "http" "s" none none).ip ≠
        (Proxy.mk "a" "b:c" "http" "s" none none).ip ∧
    proxyKey (Proxy.mk "a:b" "c" "http" "s" none none) =
        proxyKey (Proxy.mk "a" "b:c" "http" "s" none none) ∧
    dedupe [Proxy.mk "a:b" "c" "http" "s" none none,
            Proxy.mk "a" "b:c" "http" "s" none none] =
      [Proxy.mk "a:b" "c" "http" "s" none none] := by
  refine ⟨by decide, by decide, by decide⟩

/-- C1.  Read-through staleness of get_proxies: with a non-empty cache last
updated at T, a call at now ≤ T + ttl returns the current entries unchanged
and runs no harvest cycle; with an empty cache, or at now strictly after
T + ttl, exactly one cycle runs and both entries and last_updated are
replaced before the response is built. -/
theorem c1_read_through_staleness (c : CacheState) (now : Nat)
    (harvest : List Proxy) :
    (∀ T, c.last_updated = some T → c.proxies ≠ [] → now ≤ T + c.expires_in →
      get_proxies c now harvest = some (c, ⟨c.proxies.length, T, c.proxies⟩, 0)) ∧
    (c.proxies = [] →
      get_proxies c now harvest =
        some (update_proxy_cache c now harvest, ⟨harvest.length, now, harvest⟩, 1)) ∧
    (∀ T, c.last_updated = some T → T + c.expires_in < now →
      get_proxies c now harvest =
        some (update_proxy_cache c now harvest, ⟨harvest.length, now, harvest⟩, 1)) := by
  refine ⟨?_, ?_, ?_⟩
  · intro T hT hne hle
    have hdec : decide (T + c.expires_in < now) = false := by
      simp; omega
    cases hcp : c.proxies with
    | nil => exact absurd hcp hne
    | cons a l =>
      simp [get_proxies, needsRefresh, hcp, hT, hdec]
  · intro hem
    simp [get_proxies, needsRefresh, hem, update_proxy_cache]
  · intro T hT hgt
    have hnr : needsRefresh c now = some true := by
      by_cases hcp : c.proxies.isEmpty
      · simp [needsRefresh, hcp]
      · simp [needsRefresh, hcp, hT, hgt]
    simp [get_proxies, hnr, update_proxy_cache]

/-- C1 witness: the spec's own numbers on a one-entry cache with ttl = 30:
a read at T + 29 serves the cache without a cycle, a read at T + 31 runs one
cycle, and an empty cache refreshes. -/
theorem c1_read_through_staleness_witness :
    (get_proxies ⟨[⟨"1.2.3.4", "8080", "http", "https://a.example/list", none, none⟩],
                  some 0, 30⟩ 29 [] =
      some (⟨[⟨"1.2.3.4", "8080", "http", "https://a.example/list", none, none⟩],
             some 0, 30⟩,
            ⟨1, 0, [⟨"1.2.3.4", "8080", "http", "https://a.example/list", none, none⟩]⟩,
            0)) ∧
    (get_proxies ⟨[⟨"1.2.3.4", "8080", "http", "https://a.example/list", none, none⟩],
                  some 0, 30⟩ 31 [] =
      some (⟨[], some 31, 30⟩, ⟨0, 31, []⟩, 1)) ∧
    (get_proxies ⟨[], none, 30⟩ 5
        [⟨"1.2.3.4", "8080", "http", "https://a.example/list", none, none⟩] =
      some (⟨[⟨"1.2.3.4", "8080", "http", "https://a.example/list", none, none⟩],
             some 5, 30⟩,
            ⟨1, 5, [⟨"1.2.3.4", "8080", "http", "https://a.example/list", none, none⟩]⟩,
            1)) :=
  ⟨(c1_read_through_staleness _ 29 _).1 0 rfl (by decide) (by decide),
   (c1_read_through_staleness _ 31 _).2.2 0 rfl (by decide),
   (c1_read_through_staleness _ 5 _).2.1 rfl⟩

/-- C3 counterexample.  get_stats does NOT perform the read-through staleness
check: on a one-entry cache last updated at 0 with ttl 30, a stats call at
now = 100 (strictly past 0 + 30, so the claimed condition for a refresh
holds) runs zero harvest cycles and leaves the cache untouched. -/
theorem c3_stats_ttl_ignored :
    (Proxy.mk "1.2.3.4" "8080" "http" "https://a.example/list" none none ::
        [] ≠ []) ∧
    0 + 30 < 100 ∧
    get_stats ⟨[⟨"1.2.3.4", "8080", "http", "https://a.example/list", none, none⟩],
               some 0, 30⟩ 100 [] =
      some (⟨[⟨"1.2.3.4", "8080", "http", "https://a.example/list", none, none⟩],
             some 0, 30⟩,
            ⟨1, 1, 0, [("a.example", 1)], 0⟩, 0) := by
  refine ⟨by decide, by decide, by decide⟩

/-- C3 amended.  get_stats refreshes exactly when the entries list is empty
(it never consults last_updated or the ttl), then reports the total count,
the http count, the https count as total minus http, and the per-source-domain
tally, all computed from the (possibly refreshed) entries. -/
theorem c3_stats_empty_check_only (c : CacheState) (now : Nat)
    (harvest : List Proxy) :
    (c.proxies = [] → ∀ srcs, sourcesTally harvest = some srcs →
      get_stats c now harvest =
        some (update_proxy_cache c now harvest,
              ⟨harvest.length,
               (harvest.filter (fun p => p.protocol == "http")).length,
               harvest.length -
                 (harvest.filter (fun p => p.protocol == "http")).length,
               srcs, now⟩, 1)) ∧
    (c.proxies ≠ [] → ∀ T srcs, c.last_updated = some T →
      sourcesTally c.proxies = some srcs →
      get_stats c now harvest =
        some (c,
              ⟨c.proxies.length,
               (c.proxies.filter (fun p => p.protocol == "http")).length,
               c.proxies.length -
                 (c.proxies.filter (fun p => p.protocol == "http")).length,
               srcs, T⟩, 0)) := by
  constructor
  · intro hem srcs hsrcs
    simp [get_stats, hem, update_proxy_cache, hsrcs]
  · intro hne T srcs hT hsrcs
    cases hcp : c.proxies with
    | nil => exact absurd hcp hne
    | cons a l =>
      simp only [get_stats, hcp, List.isEmpty_cons, if_neg Bool.false_ne_true]
      rw [← hcp, hsrcs, hT]

/-- C3 amended witness: a non-empty, long-stale cache yields zero cycles; an
empty cache yields one cycle built from the harvest. -/
theorem c3_stats_empty_check_only_witness :
    (get_stats ⟨[⟨"1.2.3.4", "8080", "http", "https://a.example/list", none, none⟩],
                some 0, 30⟩ 100 [] =
      some (⟨[⟨"1.2.3.4", "8080", "http", "https://a.example/list", none, none⟩],
             some 0, 30⟩,
            ⟨1, 1, 0, [("a.example", 1)], 0⟩, 0)) ∧
    (get_stats ⟨[], none, 30⟩ 7
        [⟨"9.9.9.9", "443", "https", "https://b.example/x", none, none⟩] =
      some (⟨[⟨"9.9.9.9", "443", "https", "https://b.example/x", none, none⟩],
             some 7, 30⟩,
            ⟨1, 0, 1, [("b.example", 1)], 7⟩, 1)) :=
  ⟨(c3_stats_empty_check_only _ 100 []).2 (by decide) 0 [("a.example", 1)]
      rfl (by decide),
   (c3_stats_empty_check_only ⟨[], none, 30⟩ 7 _).1 rfl [("b.example", 1)]
      (by decide)⟩

/-- C4.  The handlers take no lock between the staleness check and the
harvest, so two concurrent read-through calls against the empty cache can
both pass the check before either refreshes: under the schedule
check(0), check(1), refresh(0), refresh(1) the process executes two harvest
cycles, violating the at-most-one-in-flight / exactly-one-total requirement
(both threads are simultaneously at the refresh step after the two checks). -/
theorem c4_two_concurrent_cycles :
    (runSched 5 [⟨"1.2.3.4", "8080", "http", "https://a.example/list", none, none⟩]
        (initConc ⟨[], none, 30⟩ 2) [0, 1, 0, 1]).cycles = 2 ∧
    (runSched 5 [⟨"1.2.3.4", "8080", "http", "https://a.example/list", none, none⟩]
        (initConc ⟨[], none, 30⟩ 2) [0, 1]).pcs = [.refresh, .refresh] := by
  refine ⟨by decide, by decide⟩

/-- C5.  The fetcher never propagates a failure: any raised exception and a
response without a table both yield the empty list; within the scanned window
of a retrieved table, every row with fewer than two columns is skipped and
every row with at least two columns contributes exactly one record, in
order. -/
theorem c5_fetch_failure_handling (url pt : String)
    (trs : List (List String)) :
    fetch_proxies_from_source url pt (.error ()) = [] ∧
    fetch_proxies_from_source url "table" (.ok ⟨none⟩) = [] ∧
    fetch_proxies_from_source url "table" (.ok ⟨some trs⟩) =
      (((trs.drop 1).take 19).filter (fun r => 2 ≤ r.length)).map
        (mkRowProxy url) := by
  refine ⟨rfl, rfl, ?_⟩
  simp [fetch_proxies_from_source, rowLoop_eq_filter_map]

/-- C6.  The tabular rule of the fetcher: the first table's header row is
skipped and never contributes, at most 19 subsequent rows are read, each
retained row's first two columns (stripped) become the address and the port,
and the protocol is https exactly when the source url contains "ssl", else
http; the source field records the url. -/
theorem c6_tabular_rule (url : String) (hd : List String)
    (rest : List (List String)) :
    (fetch_proxies_from_source url "table" (.ok ⟨some (hd :: rest)⟩) =
      ((rest.take 19).filter (fun r => 2 ≤ r.length)).map (mkRowProxy url)) ∧
    (fetch_proxies_from_source url "table" (.ok ⟨some (hd :: rest)⟩)).length
      ≤ 19 ∧
    (∀ p ∈ fetch_proxies_from_source url "table" (.ok ⟨some (hd :: rest)⟩),
      p.protocol = (if strContains url "ssl" then "https" else "http") ∧
      p.source = url) ∧
    (∀ cols : List String,
      mkRowProxy url cols =
        ⟨pyStrip (cols.getD 0 ""), pyStrip (cols.getD 1 ""),
         if strContains url "ssl" then "https" else "http",
         url, none, none⟩) := by
  have heq : fetch_proxies_from_source url "table" (.ok ⟨some (hd :: rest)⟩) =
      ((rest.take 19).filter (fun r => 2 ≤ r.length)).map (mkRowProxy url) := by
    simp [fetch_proxies_from_source, rowLoop_eq_filter_map]
  refine ⟨heq, ?_, ?_, fun cols => rfl⟩
  · rw [heq, List.length_map]
    calc ((rest.take 19).filter (fun r => 2 ≤ r.length)).length
        ≤ (rest.take 19).length := List.length_filter_le _ _
      _ ≤ 19 := by simp [List.length_take]
  · intro p hp
    rw [heq] at hp
    obtain ⟨cols, _, rfl⟩ := List.mem_map.mp hp
    exact ⟨rfl, rfl⟩

/-- C6 witness: a two-row table from an ssl-marked url yields one record with
the stripped columns as address and port and protocol https. -/
theorem c6_tabular_rule_witness :
    fetch_proxies_from_source "https://www.sslproxies.org/" "table"
        (.ok ⟨some [["IP", "Port"], ["1.2.3.4", " 8080"], ["lonely"]]⟩) =
      [⟨"1.2.3.4", "8080", "https", "https://www.sslproxies.org/",
        none, none⟩] ∧
    (mkRowProxy "https://www.sslproxies.org/" ["1.2.3.4", " 8080"]).protocol =
      "https" := by
  have h := c6_tabular_rule "https://www.sslproxies.org/" ["IP", "Port"]
    [["1.2.3.4", " 8080"], ["lonely"]]
  have hmem := h.2.2.1
    (mkRowProxy "https://www.sslproxies.org/" ["1.2.3.4", " 8080"]) (by decide)
  refine ⟨?_, ?_⟩
  · rw [h.1]; decide
  · rw [hmem.1]; decide

/-- C7.  verify returns a record if and only if the single probe request came
back with status 200; the returned record is the candidate stamped with
last_checked = now and working = true; any raised exception or any other
status yields nothing (the model performs exactly one probe, so there is no
retry). -/
theorem c7_verify (p : Proxy) (probe : ProbeResult) (now : Nat) :
    (∀ q, test_proxy p probe now = some q ↔
      (probe = .response 200 ∧
       q = { p with last_checked := some now, working := some true })) ∧
    (test_proxy p probe now = none ↔ probe ≠ .response 200) := by
  constructor
  · intro q
    cases probe with
    | failure => simp [test_proxy]
    | response code =>
      by_cases h : code = 200
      · subst h
        simp [test_proxy, eq_comm]
      · simp [test_proxy, h]
  · cases probe with
    | failure => simp [test_proxy]
    | response code =>
      by_cases h : code = 200
      · subst h; simp [test_proxy]
      · simp [test_proxy, h]

/-- C7 witness: a 200 probe stamps and returns the candidate; a 503 status
and a raised exception both return nothing. -/
theorem c7_verify_witness :
    test_proxy ⟨"1.2.3.4", "8080", "http", "s", none, none⟩ (.response 200) 7 =
      some ⟨"1.2.3.4", "8080", "http", "s", some 7, some true⟩ ∧
    test_proxy ⟨"1.2.3.4", "8080", "http", "s", none, none⟩ (.response 503) 7 =
      none ∧
    test_proxy ⟨"1.2.3.4", "8080", "http", "s", none, none⟩ .failure 7 =
      none := by
  refine ⟨?_, ?_, ?_⟩
  · exact ((c7_verify ⟨"1.2.3.4", "8080", "http", "s", none, none⟩
      (.response 200) 7).1 _).mpr ⟨rfl, rfl⟩
  · exact (c7_verify ⟨"1.2.3.4", "8080", "http", "s", none, none⟩
      (.response 503) 7).2.mpr (by decide)
  · exact (c7_verify ⟨"1.2.3.4", "8080", "http", "s", none, none⟩
      .failure 7).2.mpr (by decide)

/-- C8 counterexample.  The fetcher stores the port column's text without
converting it to an integer, so the source row ("1.2.3.4", "8080") is served
with port equal to the JSON string "8080" — not a JSON number, in particular
not the integer 8080 the claim requires. -/
theorem c8_port_served_as_string :
    ∃ p ∈ fetch_proxies_from_source "http://x.example/" "table"
        (.ok ⟨some [["IP", "Port"], ["1.2.3.4", "8080"]]⟩),
      jsonField (proxyToJson p) "port" = some (.str "8080") ∧
      ∀ n : Int, Json.str "8080" ≠ Json.num n := by
  refine ⟨mkRowProxy "http://x.example/" ["1.2.3.4", "8080"], by decide,
          rfl, fun n h => Json.noConfusion h⟩

/-- C8 amended.  Every candidate the fetcher produces carries as its port the
stripped text of its row's second column, and is served with the port field
as that JSON string (a row with port text "8080" is served with port the
string "8080"); no integer conversion or 1-65535 range validation happens
anywhere. -/
theorem c8_port_is_column_text (url : String) (trs : List (List String))
    (p : Proxy)
    (hp : p ∈ fetch_proxies_from_source url "table" (.ok ⟨some trs⟩)) :
    jsonField (proxyToJson p) "port" = some (.str p.port) ∧
    ∃ cols ∈ (trs.drop 1).take 19,
      2 ≤ cols.length ∧ p.port = pyStrip (cols.getD 1 "") := by
  refine ⟨rfl, ?_⟩
  simp only [fetch_proxies_from_source, rowLoop_eq_filter_map,
    if_pos rfl] at hp
  obtain ⟨cols, hcols, rfl⟩ := List.mem_map.mp hp
  exact ⟨cols, List.mem_of_mem_filter hcols,
    by simpa using List.of_mem_filter hcols, rfl⟩

/-- C8 amended witness: the claim's own example row, with the membership
hypothesis discharged on a concrete fetched table. -/
theorem c8_port_is_column_text_witness :
    jsonField (proxyToJson (mkRowProxy "http://x.example/" ["1.2.3.4", "8080"]))
        "port" =
      some (.str (mkRowProxy "http://x.example/" ["1.2.3.4", "8080"]).port) ∧
    ∃ cols ∈ ([["IP", "Port"], ["1.2.3.4", "8080"]].drop 1).take 19,
      2 ≤ cols.length ∧
      (mkRowProxy "http://x.example/" ["1.2.3.4", "8080"]).port =
        pyStrip (cols.getD 1 "") :=
  c8_port_is_column_text "http://x.example/" [["IP", "Port"], ["1.2.3.4", "8080"]]
    (mkRowProxy "http://x.example/" ["1.2.3.4", "8080"]) (by decide)

/-- C9.  The protocol filter endpoint: a protocol other than http or https is
answered with status 400 and the error body, without running a cycle or
touching the cache; for http or https, whatever cache state the staleness
check leaves in place, the response has status 200 and lists exactly the
entries of that state whose protocol matches, with count equal to their
number. -/
theorem c9_protocol_filter (protocol : String) (c : CacheState) (now : Nat)
    (harvest : List Proxy) :
    (protocol ≠ "http" → protocol ≠ "https" →
      get_proxies_by_protocol protocol c now harvest =
        some (c, 400, .error "Protocolo no válido. Use http o https", 0)) ∧
    (∀ c2 st body k, (protocol = "http" ∨ protocol = "https") →
      get_proxies_by_protocol protocol c now harvest = some (c2, st, body, k) →
      st = 200 ∧
      body = .listing
        (c2.proxies.filter (fun p => p.protocol == protocol)).length
        protocol
        (c2.proxies.filter (fun p => p.protocol == protocol))) := by
  constructor
  · intro h1 h2
    simp [get_proxies_by_protocol, h1, h2]
  · intro c2 st body k hv heq
    have hcond : ¬(protocol ≠ "http" ∧ protocol ≠ "https") := by
      rcases hv with rfl | rfl <;> simp
    rw [get_proxies_by_protocol, if_neg hcond] at heq
    cases hnr : needsRefresh c now with
    | none => rw [hnr] at heq; cases heq
    | some b =>
      rw [hnr] at heq
      simp only [Option.some.injEq, Prod.mk.injEq] at heq
      obtain ⟨hc2, hst, hbody, -⟩ := heq
      subst hc2
      exact ⟨hst.symm, hbody.symm⟩

/-- C9 witness: GET /proxies/ftp on the empty cache answers 400 without a
cycle; GET /proxies/https on a fresh two-entry cache lists exactly its one
https entry. -/
theorem c9_protocol_filter_witness :
    (get_proxies_by_protocol "ftp" ⟨[], none, 30⟩ 0 [] =
      some (⟨[], none, 30⟩, 400,
            .error "Protocolo no válido. Use http o https", 0)) ∧
    ((200 : Nat) = 200 ∧
     ProtoBody.listing 1 "https"
        [⟨"9.9.9.9", "443", "https", "s2", some 1, some true⟩] =
      ProtoBody.listing 1 "https"
        [⟨"9.9.9.9", "443", "https", "s2", some 1, some true⟩]) :=
  ⟨(c9_protocol_filter "ftp" ⟨[], none, 30⟩ 0 []).1 (by decide) (by decide),
   (c9_protocol_filter "https"
      ⟨[⟨"1.1.1.1", "80", "http", "s1", some 1, some true⟩,
        ⟨"9.9.9.9", "443", "https", "s2", some 1, some true⟩], some 0, 30⟩
      10 []).2
    ⟨[⟨"1.1.1.1", "80", "http", "s1", some 1, some true⟩,
      ⟨"9.9.9.9", "443", "https", "s2", some 1, some true⟩], some 0, 30⟩
    200
    (.listing 1 "https" [⟨"9.9.9.9", "443", "https", "s2", some 1, some true⟩])
    0 (Or.inr rfl) (by decide)⟩

end ProxyApp

